import Mathlib

/-!
Verification of the incremental constitutive-integration and assembly core of
the XC finite-element code (EightNodeBrick_u_p_U element, constitutive state
machine, CrossSectionKR serialization, Radau beam integration, scatter-add
assembly).  All numeric code is embedded over the rationals; machine doubles
are modelled exactly, so every statement is about the algebra the source
implements, not about rounding.
-/

/-! ## EightNodeBrick_u_p_U constants (EightNodeBrick_u_p_U.cpp, lines 81-93) -/

def Num_IntegrationPts : ℕ := 2
def Num_TotalGaussPts : ℕ := 8
def Num_Nodes : ℕ := 8
def Num_Dim : ℕ := 3

/-- Gauss abscissae pts[2] = {-0.577350269189626, +0.577350269189626}. -/
def pts : Fin 2 → ℚ := ![-0.577350269189626, 0.577350269189626]

/-- Gauss weights wts[2] = {1.0, 1.0}. -/
def wts : Fin 2 → ℚ := ![1, 1]

/-! ## C1: EightNodeBrick_u_p_U::update (lines 511-562)

The loop body is, per Gauss point `where = (GP_c_r*2+GP_c_s)*2+GP_c_t`:
`if(physicalProperties[where]->setTrialStrain(eps)) std::cerr << ... ;`
and the function ends with `return ret;` where `ret` was initialized to 0 and
is never written again.  The per-point status of setTrialStrain is abstracted
as the function `statusAt`; the strain argument does not influence the
returned value, which is the subject of the claim.  In the embedding the
diagnostic print is invisible, so both branches of the `if` keep `ret`. -/

def update_upU (statusAt : ℕ → Int) : Int :=
  (List.range 2).foldl (fun ret gr =>
    (List.range 2).foldl (fun ret gs =>
      (List.range 2).foldl (fun ret gt =>
        if statusAt ((gr * 2 + gs) * 2 + gt) ≠ 0 then ret else ret) ret) ret) 0

theorem foldl_keep {α β : Type} (l : List α) (a : β) :
    l.foldl (fun x _ => x) a = a := by
  induction l generalizing a with
  | nil => rfl
  | cons h t ih => simp [ih a]

/-- C1 counterexample: with every integration point reporting failure
(setTrialStrain status 1 at every Gauss point, in particular at point 0),
update still returns 0, contradicting the claim that update returns a nonzero
value whenever some setTrialStrain call returns nonzero. -/
theorem update_upU_ignores_failures :
    (fun _ : ℕ => (1 : Int)) 0 ≠ 0 ∧ update_upU (fun _ => 1) = 0 := by
  constructor
  · decide
  · decide

/-- C1 amended: EightNodeBrick_u_p_U::update returns 0 (success) for every
possible pattern of setTrialStrain statuses; a constitutive failure is only
reported as a diagnostic message and is not propagated through the return
value. -/
theorem update_upU_always_zero (statusAt : ℕ → Int) : update_upU statusAt = 0 := by
  simp only [update_upU, ite_self, foldl_keep]

/-! ## C3: getResponse, responseID 5 "stresses" (lines 442-458)

For each of the 8 Gauss points the code pushes
sigma(1,1), sigma(2,2), sigma(3,3), sigma(2,3), sigma(3,1), sigma(2,3)
(the last one is commented `//xy` in the source but reads component (2,3)
again).  Tensor indices are 1-based in the source; the embedding is 0-based,
and `sigma` abstracts `physicalProperties[i]->getStressTensor()`. -/

def responseStresses (sigma : Fin 8 → Fin 3 → Fin 3 → ℚ) : List ℚ :=
  (List.finRange 8).foldr (fun i acc =>
    sigma i 0 0 :: sigma i 1 1 :: sigma i 2 2 ::
    sigma i 1 2 :: sigma i 2 0 :: sigma i 1 2 :: acc) []

/-- Stress tensor used to exhibit the defect: symmetric, with xy component
sigma(1,2) = 6 and yz component sigma(2,3) = 4 at every Gauss point. -/
def testSigma : Fin 8 → Fin 3 → Fin 3 → ℚ := fun _ i j =>
  if i = j then 1
  else if (i = 0 ∧ j = 1) ∨ (i = 1 ∧ j = 0) then 6
  else if (i = 1 ∧ j = 2) ∨ (i = 2 ∧ j = 1) then 4
  else 5

/-- C3: evaluating the responseID 5 path at a stress state with
sigma(1,2) = 6 and sigma(2,3) = 4 shows that the sixth value of the first
group of six is 4 = sigma(2,3), a repeat of the fourth (yz) value, and not
the xy component sigma(1,2) = 6 that the claim (and the comment in the
source) promises. -/
theorem responseStresses_sixth_is_yz :
    (responseStresses testSigma).getD 5 0 = 4 ∧
    (responseStresses testSigma).getD 3 0 = 4 ∧
    testSigma 0 0 1 = 6 ∧ ((4 : ℚ) ≠ 6) := by
  refine ⟨?_, ?_, ?_, ?_⟩ <;> decide

/-! ## C10: RadauBeamIntegration::getSectionWeights (lines 177-272)

The switch assigns, for each supported numSections, the listed array indices
with the listed constants; the function then scales wt[0..numSections-1] by
0.5.  The embedding records the writes performed by the switch as a list of
(index, value) pairs, exactly as in the source. -/

def radauWeightWrites : ℕ → List (ℕ × ℚ)
  | 1 => [(0, 2.0)]
  | 2 => [(0, 0.5), (1, 1.5)]
  | 3 => [(1, 0.2222222222), (2, 1.024971652), (3, 0.7528061254)]
  | 4 => [(1, 0.125), (2, 0.6576886399), (3, 0.7763869376), (4, 0.4409244223)]
  | 5 => [(1, 0.08), (2, 0.4462078021), (3, 0.6236530459), (4, 0.5627120302),
          (5, 0.2874271215)]
  | 6 => [(1, 0.05555555555), (2, 0.3196407532), (3, 0.4853871884),
          (4, 0.5209267831), (5, 0.4169013343), (6, 0.2015883852)]
  | 7 => [(1, 0.04081632653), (2, 0.2392274892), (3, 0.3809498736),
          (4, 0.4471098290), (5, 0.4247037790), (6, 0.3182042314),
          (7, 0.1489884711)]
  | 8 => [(1, 0.03125), (2, 0.1853581548), (3, 0.3041306206),
          (4, 0.3765175453), (5, 0.3915721674), (6, 0.3470147956),
          (7, 0.2496479013), (8, 0.1145088147)]
  | 9 => [(1, 0.02469135802), (2, 0.1476540190), (3, 0.2471893782),
          (4, 0.3168437756), (5, 0.3482730027), (6, 0.3376939669),
          (7, 0.2863866963), (8, 0.2005532980), (9, 0.09071450492)]
  | 10 => [(1, 0.02), (2, 0.1202966705), (3, 0.2042701318), (4, 0.2681948378),
           (5, 0.3058592877), (6, 0.3135824572), (7, 0.2906101648),
           (8, 0.2391934317), (9, 0.1643760127), (10, 0.07361700548)]
  | _ => []

/-- C10: at numSections = 3 the switch writes exactly indices 1, 2
and 3 of the output array: index 3 is out of bounds for an array of length 3
(so the write at index numSections is an out-of-bounds store), and index 0
is never assigned even though the final scaling loop reads and scales it.
For numSections 1 and 2 the writes are the in-bounds indices 0..numSections-1
and the scaled weights sum to 1 exactly. -/
theorem radauWeights_oob_at_three :
    (radauWeightWrites 3).map Prod.fst = [1, 2, 3] ∧
    (3 ∈ (radauWeightWrites 3).map Prod.fst ∧ ¬ (3 < 3)) ∧
    0 ∉ (radauWeightWrites 3).map Prod.fst ∧
    ((radauWeightWrites 1).map Prod.fst = [0] ∧
      ((radauWeightWrites 1).map (fun w => w.2 * 0.5)).sum = 1) ∧
    ((radauWeightWrites 2).map Prod.fst = [0, 1] ∧
      ((radauWeightWrites 2).map (fun w => w.2 * 0.5)).sum = 1) := by
  refine ⟨by decide, ⟨by decide, by decide⟩, by decide,
    ⟨by decide, by norm_num [radauWeightWrites]⟩,
    ⟨by decide, by norm_num [radauWeightWrites]⟩⟩

/-! ## C2: Jacobian handling (lines 1018-1037, 745-796)

shapeFunctionDerivative (lines 1108-1147) is translated with node k of the
source (1-based) at index k-1 and coordinate direction d (1-based) at index
d-1.  Jacobian_3D is the contraction N_C("ki") * dh("kj") with the nodal
coordinates; getStiffnessTensorKep (and every other integration routine of
the element) computes weight = rw * sw * tw * det_of_Jacobian with no check
on the sign of the determinant, and Jacobian_3Dinv inverts unconditionally. -/

def shapeFunctionDerivative (r1 r2 r3 : ℚ) : Fin 8 → Fin 3 → ℚ :=
  fun k d =>
    match k, d with
    | 0, 0 =>  (1 + r2) * (1 + r3) * 0.125
    | 0, 1 =>  (1 + r1) * (1 + r3) * 0.125
    | 0, 2 =>  (1 + r1) * (1 + r2) * 0.125
    | 1, 0 => -(1 + r2) * (1 + r3) * 0.125
    | 1, 1 =>  (1 - r1) * (1 + r3) * 0.125
    | 1, 2 =>  (1 - r1) * (1 + r2) * 0.125
    | 2, 0 => -(1 - r2) * (1 + r3) * 0.125
    | 2, 1 => -(1 - r1) * (1 + r3) * 0.125
    | 2, 2 =>  (1 - r1) * (1 - r2) * 0.125
    | 3, 0 =>  (1 - r2) * (1 + r3) * 0.125
    | 3, 1 => -(1 + r1) * (1 + r3) * 0.125
    | 3, 2 =>  (1 + r1) * (1 - r2) * 0.125
    | 4, 0 =>  (1 + r2) * (1 - r3) * 0.125
    | 4, 1 =>  (1 + r1) * (1 - r3) * 0.125
    | 4, 2 => -(1 + r1) * (1 + r2) * 0.125
    | 5, 0 => -(1 + r2) * (1 - r3) * 0.125
    | 5, 1 =>  (1 - r1) * (1 - r3) * 0.125
    | 5, 2 => -(1 - r1) * (1 + r2) * 0.125
    | 6, 0 => -(1 - r2) * (1 - r3) * 0.125
    | 6, 1 => -(1 - r1) * (1 - r3) * 0.125
    | 6, 2 => -(1 - r1) * (1 - r2) * 0.125
    | 7, 0 =>  (1 - r2) * (1 - r3) * 0.125
    | 7, 1 => -(1 + r1) * (1 - r3) * 0.125
    | 7, 2 => -(1 + r1) * (1 - r2) * 0.125

/-- Jacobian_3D: J3D(i,j) = sum over nodes k of N_C(k,i) * dh(k,j), where
N_C abstracts getNodesCrds (the trial coordinates of the 8 incident nodes). -/
def Jacobian_3D (coords dh : Fin 8 → Fin 3 → ℚ) : Fin 3 → Fin 3 → ℚ :=
  fun i j => ∑ k : Fin 8, coords k i * dh k j

/-- BJtensor::determinant for a rank-2 3x3 tensor (cofactor expansion). -/
def det3 (J : Fin 3 → Fin 3 → ℚ) : ℚ :=
  J 0 0 * (J 1 1 * J 2 2 - J 1 2 * J 2 1)
  - J 0 1 * (J 1 0 * J 2 2 - J 1 2 * J 2 0)
  + J 0 2 * (J 1 0 * J 2 1 - J 1 1 * J 2 0)

/-- Jacobian_3Dinv: the algebraic inverse (adjugate over determinant) of the
Jacobian, formed unconditionally by the source with no determinant guard
(rational division by a zero determinant yields junk, as the doubles of the
source would). -/
def Jacobian_3Dinv (coords dh : Fin 8 → Fin 3 → ℚ) : Fin 3 → Fin 3 → ℚ :=
  fun i j =>
    (let J := Jacobian_3D coords dh
     match i, j with
     | 0, 0 =>  (J 1 1 * J 2 2 - J 1 2 * J 2 1)
     | 0, 1 => -(J 0 1 * J 2 2 - J 0 2 * J 2 1)
     | 0, 2 =>  (J 0 1 * J 1 2 - J 0 2 * J 1 1)
     | 1, 0 => -(J 1 0 * J 2 2 - J 1 2 * J 2 0)
     | 1, 1 =>  (J 0 0 * J 2 2 - J 0 2 * J 2 0)
     | 1, 2 => -(J 0 0 * J 1 2 - J 0 2 * J 1 0)
     | 2, 0 =>  (J 1 0 * J 2 1 - J 1 1 * J 2 0)
     | 2, 1 => -(J 0 0 * J 2 1 - J 0 1 * J 2 0)
     | 2, 2 =>  (J 0 0 * J 1 1 - J 0 1 * J 1 0)) / det3 (Jacobian_3D coords dh)

inductive GeometryError where
  | degenerateJacobian
deriving DecidableEq

/-- Quadrature weight at Gauss point (gr, gs, gt) in getStiffnessTensorKep:
weight = rw * sw * tw * det_of_Jacobian, exactly as in lines 771-786 of the
source (and identically in getExForceS/F, getDampTensorC123, getMassTensorMsf
and getStiffnessTensorP). -/
def kepGaussWeight (coords : Fin 8 → Fin 3 → ℚ) (gr gs gt : Fin 2) : ℚ :=
  wts gr * wts gs * wts gt *
    det3 (Jacobian_3D coords (shapeFunctionDerivative (pts gr) (pts gs) (pts gt)))

/-- The source computation injected into the error monad for comparison with
the spec contract: the source has no error branch on the geometry, so every
input produces a value. -/
def kepGaussWeightCode (coords : Fin 8 → Fin 3 → ℚ) (gr gs gt : Fin 2) :
    Except GeometryError ℚ :=
  Except.ok (kepGaussWeight coords gr gs gt)

/-- Follows the wording of the spec (refinement target for C2): a
non-positive Jacobian determinant must be detected and reported as a fatal
geometry error before the determinant or the Jacobian inverse is used. -/
def kepGaussWeightSpec (coords : Fin 8 → Fin 3 → ℚ) (gr gs gt : Fin 2) :
    Except GeometryError ℚ :=
  let d := det3 (Jacobian_3D coords (shapeFunctionDerivative (pts gr) (pts gs) (pts gt)))
  if d ≤ 0 then Except.error GeometryError.degenerateJacobian
  else Except.ok (wts gr * wts gs * wts gt * d)

/-- Fully degenerate geometry: all eight nodes at the origin. -/
def zeroCoords : Fin 8 → Fin 3 → ℚ := fun _ _ => 0

theorem det3_zeroCoords (gr gs gt : Fin 2) :
    det3 (Jacobian_3D zeroCoords
      (shapeFunctionDerivative (pts gr) (pts gs) (pts gt))) = 0 := by
  simp [det3, Jacobian_3D, zeroCoords]

/-- C2 counterexample: at a degenerate element (all nodes coincident, so the
Jacobian determinant is 0 at every Gauss point) the element code still
produces a quadrature weight instead of the fatal geometry error the claim
requires; the code behavior differs from the spec-mandated checked behavior
at this concrete input. -/
theorem kepGaussWeight_no_detection :
    kepGaussWeightCode zeroCoords 0 0 0 ≠ kepGaussWeightSpec zeroCoords 0 0 0 := by
  simp [kepGaussWeightCode, kepGaussWeightSpec, det3_zeroCoords]

/-- C2 amended: the element performs no Jacobian determinant check at all:
whenever the determinant at a Gauss point is non-positive, the computation
still returns a value (no error is reported) and the quadrature weight is the
non-positive product rw * sw * tw * determinant, silently used in the
integration. -/
theorem kepGaussWeight_silent_nonpositive (coords : Fin 8 → Fin 3 → ℚ)
    (gr gs gt : Fin 2)
    (h : det3 (Jacobian_3D coords
      (shapeFunctionDerivative (pts gr) (pts gs) (pts gt))) ≤ 0) :
    kepGaussWeightCode coords gr gs gt = Except.ok (kepGaussWeight coords gr gs gt) ∧
    kepGaussWeight coords gr gs gt ≤ 0 := by
  refine ⟨rfl, ?_⟩
  have h1 : wts gr = 1 := by fin_cases gr <;> rfl
  have h2 : wts gs = 1 := by fin_cases gs <;> rfl
  have h3 : wts gt = 1 := by fin_cases gt <;> rfl
  rw [kepGaussWeight, h1, h2, h3]
  linarith

/-- Witness for the C2 amended theorem at the degenerate element. -/
theorem kepGaussWeight_silent_nonpositive_witness :
    det3 (Jacobian_3D zeroCoords
      (shapeFunctionDerivative (pts 0) (pts 0) (pts 0))) ≤ 0 ∧
    (kepGaussWeightCode zeroCoords 0 0 0 =
        Except.ok (kepGaussWeight zeroCoords 0 0 0) ∧
      kepGaussWeight zeroCoords 0 0 0 ≤ 0) :=
  ⟨le_of_eq (det3_zeroCoords 0 0 0),
   kepGaussWeight_silent_nonpositive zeroCoords 0 0 0
     (le_of_eq (det3_zeroCoords 0 0 0))⟩

/-! ## C4, C5, C6: constitutive state machine

Modelled from the spec: the bodies of J2Plasticity::plastic_integrator,
commitState, revertToLastCommit and the getStress/getTangent accessors are
only declared in src/src/material/nD/J2Plasticity.h; their definitions are
not under src/.  The model below follows the spec: an integration point holds
committed and trial copies of (strain, plastic strain, hardening variable,
stress, tangent); setTrialStrain performs a return mapping (elastic trial
stress from strain minus committed plastic strain, yield check against
q = sigY + H * xi, closed-form plastic multiplier restoring admissibility,
consistent tangent E * H / (E + H)); commit copies trial to committed; revert
copies committed to trial; getStress/getTangent read the trial values.  The
model is one-dimensional, which realizes every transition of the spec state
machine with exact rational arithmetic. -/

/-- Modelled from the spec: committed or trial variables of one integration
point (spec section 3, IntegrationPointState). -/
structure PointVars where
  eps : ℚ
  eps_p : ℚ
  xi : ℚ
  sig : ℚ
  tang : ℚ
deriving DecidableEq

/-- Modelled from the spec: the state container of one constitutive model
instance, committed and trial halves. -/
structure MatState where
  committed : PointVars
  trial : PointVars
deriving DecidableEq

/-- Material parameters: elastic modulus, initial yield stress, linear
hardening modulus (spec section 4.2, rate-independent case). -/
structure MatParams where
  E : ℚ
  sigY : ℚ
  H : ℚ

/-- Yield function f(sigma, xi) = |sigma| - (sigY + H * xi); admissibility is
f <= 0 (spec section 8, return-mapping admissibility). -/
def yieldF (p : MatParams) (sig xi : ℚ) : ℚ :=
  |sig| - (p.sigY + p.H * xi)

/-- Modelled from the spec: setTrialStrain performs the return mapping and
stores the result in the trial half, returning status 0 on convergence (the
closed-form solve always converges). -/
def setTrialStrain (p : MatParams) (s : MatState) (epsIn : ℚ) : Int × MatState :=
  let sigTr := p.E * (epsIn - s.committed.eps_p)
  let q := p.sigY + p.H * s.committed.xi
  if sigTr > q then
    let dg := (sigTr - q) / (p.E + p.H)
    (0, { s with trial :=
      { eps := epsIn, eps_p := s.committed.eps_p + dg, xi := s.committed.xi + dg,
        sig := sigTr - p.E * dg, tang := p.E * p.H / (p.E + p.H) } })
  else if sigTr < -q then
    let dg := (-sigTr - q) / (p.E + p.H)
    (0, { s with trial :=
      { eps := epsIn, eps_p := s.committed.eps_p - dg, xi := s.committed.xi + dg,
        sig := sigTr + p.E * dg, tang := p.E * p.H / (p.E + p.H) } })
  else
    (0, { s with trial :=
      { eps := epsIn, eps_p := s.committed.eps_p, xi := s.committed.xi,
        sig := sigTr, tang := p.E } })

/-- Modelled from the spec: commitState copies trial to committed and always
succeeds. -/
def commitState (s : MatState) : Int × MatState :=
  (0, { s with committed := s.trial })

/-- Modelled from the spec: revertToLastCommit copies committed to trial,
discarding the scratch trial values, and always succeeds. -/
def revertToLastCommit (s : MatState) : Int × MatState :=
  (0, { s with trial := s.committed })

/-- Modelled from the spec: getStress is a pure read of the trial stress. -/
def getStress (s : MatState) : ℚ := s.trial.sig

/-- Modelled from the spec: getTangent is a pure read of the trial tangent. -/
def getTangent (s : MatState) : ℚ := s.trial.tang

/-- Pristine zero-strain state (spec section 4.1, revertToStart target). -/
def initMatState : MatState :=
  ⟨⟨0, 0, 0, 0, 0⟩, ⟨0, 0, 0, 0, 0⟩⟩

/-- One driver-visible step: setTrialStrain followed by commitState. -/
def stepCommit (p : MatParams) (s : MatState) (e : ℚ) : MatState :=
  (commitState (setTrialStrain p s e).2).2

/-- A sequence of setTrialStrain/commitState pairs. -/
def runCommits (p : MatParams) (s : MatState) (es : List ℚ) : MatState :=
  es.foldl (stepCommit p) s

theorem setTrialStrain_admissible (p : MatParams) (hE : 0 < p.E)
    (hH : 0 ≤ p.H) (hY : 0 ≤ p.sigY) (s : MatState)
    (hxi : 0 ≤ s.committed.xi) (epsIn : ℚ) :
    yieldF p ((setTrialStrain p s epsIn).2).trial.sig
        ((setTrialStrain p s epsIn).2).trial.xi ≤ 0 ∧
    0 ≤ ((setTrialStrain p s epsIn).2).trial.xi := by
  have hEH : (0 : ℚ) < p.E + p.H := by linarith
  have hq : 0 ≤ p.sigY + p.H * s.committed.xi := by positivity
  rw [setTrialStrain]
  split_ifs with h1 h2
  · -- plastic loading from above: sigTr > q
    set sigTr := p.E * (epsIn - s.committed.eps_p) with hsig
    set q := p.sigY + p.H * s.committed.xi with hqdef
    set dg := (sigTr - q) / (p.E + p.H) with hdg
    have hdgpos : 0 ≤ dg := by
      apply div_nonneg _ hEH.le
      linarith
    have hmap : sigTr - p.E * dg = q + p.H * dg := by
      field_simp [hdg]
      ring
    constructor
    · simp only [yieldF]
      rw [hmap]
      have habs : |q + p.H * dg| = q + p.H * dg := by
        apply abs_of_nonneg
        have : 0 ≤ p.H * dg := mul_nonneg hH hdgpos
        linarith
      rw [habs]
      simp only [hqdef]
      ring_nf
      nlinarith [mul_nonneg hH hdgpos]
    · simpa using by linarith
  · -- plastic loading from below: sigTr < -q
    set sigTr := p.E * (epsIn - s.committed.eps_p) with hsig
    set q := p.sigY + p.H * s.committed.xi with hqdef
    set dg := (-sigTr - q) / (p.E + p.H) with hdg
    have hdgpos : 0 ≤ dg := by
      apply div_nonneg _ hEH.le
      linarith
    have hmap : sigTr + p.E * dg = -(q + p.H * dg) := by
      field_simp [hdg]
      ring
    constructor
    · simp only [yieldF]
      rw [hmap]
      have habs : |-(q + p.H * dg)| = q + p.H * dg := by
        rw [abs_neg]
        apply abs_of_nonneg
        have : 0 ≤ p.H * dg := mul_nonneg hH hdgpos
        linarith
      rw [habs]
      simp only [hqdef]
      ring_nf
      nlinarith [mul_nonneg hH hdgpos]
    · simpa using by linarith
  · -- elastic: -q <= sigTr <= q
    constructor
    · simp only [yieldF]
      have : |p.E * (epsIn - s.committed.eps_p)| ≤ p.sigY + p.H * s.committed.xi := by
        rw [abs_le]
        constructor <;> linarith
      simpa using by linarith
    · simpa using hxi

theorem runCommits_inv (p : MatParams) (hE : 0 < p.E) (hH : 0 ≤ p.H)
    (hY : 0 ≤ p.sigY) :
    ∀ (es : List ℚ) (s : MatState),
      yieldF p s.committed.sig s.committed.xi ≤ 0 → 0 ≤ s.committed.xi →
      yieldF p (runCommits p s es).committed.sig
          (runCommits p s es).committed.xi ≤ 0 ∧
        0 ≤ (runCommits p s es).committed.xi := by
  intro es
  induction es with
  | nil => intro s h1 h2; exact ⟨h1, h2⟩
  | cons e tl ih =>
    intro s h1 h2
    have hstep := setTrialStrain_admissible p hE hH hY s h2 e
    have : runCommits p s (e :: tl) = runCommits p (stepCommit p s e) tl := rfl
    rw [this]
    exact ih (stepCommit p s e) hstep.1 hstep.2

/-- C4: for every sequence of setTrialStrain inputs, the stress committed by
each commitState satisfies the yield criterion f(stress) <= tolerance for any
nonnegative tolerance: starting from the pristine state, after any list of
setTrialStrain/commitState pairs, the committed stress and hardening variable
satisfy f <= tol, so no state outside the admissible surface is ever
committed. -/
theorem committed_stress_admissible (p : MatParams) (tol : ℚ) (hE : 0 < p.E)
    (hH : 0 ≤ p.H) (hY : 0 ≤ p.sigY) (htol : 0 ≤ tol) (es : List ℚ) :
    yieldF p (runCommits p initMatState es).committed.sig
      (runCommits p initMatState es).committed.xi ≤ tol := by
  have h0 : yieldF p initMatState.committed.sig initMatState.committed.xi ≤ 0 := by
    simp [yieldF, initMatState]
    linarith
  have h := runCommits_inv p hE hH hY es initMatState h0 (by simp [initMatState])
  linarith [h.1]

/-- Witness for C4: E = 2, sigY = 1, H = 1, strains [5, -1] (the first step
is plastic), tolerance 0. -/
theorem committed_stress_admissible_witness :
    (0 : ℚ) < 2 ∧ (0 : ℚ) ≤ 1 ∧ (0 : ℚ) ≤ 1 ∧ (0 : ℚ) ≤ 0 ∧
    yieldF ⟨2, 1, 1⟩ (runCommits ⟨2, 1, 1⟩ initMatState [5, -1]).committed.sig
      (runCommits ⟨2, 1, 1⟩ initMatState [5, -1]).committed.xi ≤ 0 :=
  ⟨by norm_num, by norm_num, by norm_num, by norm_num,
   committed_stress_admissible ⟨2, 1, 1⟩ 0 (by norm_num) (by norm_num)
     (by norm_num) (by norm_num) [5, -1]⟩

/-- Elastic parameter set used for the C5 counterexample: E = 1, yield
stress 10, no hardening; a unit trial strain stays far inside the yield
surface. -/
def elasticP : MatParams := ⟨1, 10, 0⟩

/-- C5 counterexample: with an elastic material (trial strain never exceeds
the yield surface, first conjunct), the sequence setTrialStrain(1), then
commitState, then revertToLastCommit changes the value returned by getStress
from 0 (before the sequence) to 1: the sequence does not leave getStress
unchanged from before the sequence, because setTrialStrain itself moves the
stress and commit makes that permanent. -/
theorem revert_after_commit_changes_stress :
    yieldF elasticP (setTrialStrain elasticP initMatState 1).2.trial.sig
        (setTrialStrain elasticP initMatState 1).2.trial.xi ≤ 0 ∧
    getStress (revertToLastCommit
        (commitState (setTrialStrain elasticP initMatState 1).2).2).2 ≠
      getStress initMatState := by
  constructor
  · norm_num [yieldF, setTrialStrain, elasticP, initMatState]
  · norm_num [getStress, revertToLastCommit, commitState, setTrialStrain,
      elasticP, initMatState]

/-- C5 amended: revertToLastCommit after commitState is a no-op on the
observable values: after setTrialStrain, commitState, revertToLastCommit,
getStress and getTangent return exactly their post-commit values; and in
general, after any revertToLastCommit a fresh getStress/getTangent call
returns the last committed values, never stale trial values. -/
theorem revert_restores_committed (p : MatParams) (s : MatState) (epsIn : ℚ) :
    (getStress (revertToLastCommit
        (commitState (setTrialStrain p s epsIn).2).2).2 =
      getStress (commitState (setTrialStrain p s epsIn).2).2 ∧
     getTangent (revertToLastCommit
        (commitState (setTrialStrain p s epsIn).2).2).2 =
      getTangent (commitState (setTrialStrain p s epsIn).2).2) ∧
    (∀ t : MatState, getStress (revertToLastCommit t).2 = t.committed.sig ∧
      getTangent (revertToLastCommit t).2 = t.committed.tang) :=
  ⟨⟨rfl, rfl⟩, fun _ => ⟨rfl, rfl⟩⟩

/-- C6: commitState is idempotent: calling it twice in a row with no
intervening setTrialStrain leaves the entire material state (both the
committed and the trial halves: strain, plastic strain, hardening variable,
stress and tangent) identical after the second call to the state after the
first call, and both calls report success (status 0). -/
theorem commitState_idempotent (s : MatState) :
    (commitState s).1 = 0 ∧
    (commitState (commitState s).2).2 = (commitState s).2 ∧
    (commitState (commitState s).2).1 = 0 :=
  ⟨rfl, rfl, rfl⟩

/-! ## C7: EightNodeBrick_u_p_U::getResistingForce (lines 312-343)

The source gathers the incident-node trial displacements into u, recomputes
the tangent stiffness K, sets P = K * u (P.addMatrixVector(0.0, K, u, 1.0)),
subtracts the accumulated load vector when nonempty, subtracts *eleQ when
allocated, and scales by dead_srf when the element is dead.  K, u, load and
eleQ are abstracted as inputs (the nodes and the stiffness formation are
external to the claim); matrix-vector product is embedded exactly. -/

def mulVecQ {n : ℕ} (K : Fin n → Fin n → ℚ) (u : Fin n → ℚ) : Fin n → ℚ :=
  fun i => ∑ j : Fin n, K i j * u j

def getResistingForce {n : ℕ} (K : Fin n → Fin n → ℚ) (u : Fin n → ℚ)
    (load eleQ : Option (Fin n → ℚ)) (dead : Bool) (dead_srf : ℚ) :
    Fin n → ℚ :=
  let P0 := mulVecQ K u
  let P1 := match load with
    | some l => fun i => P0 i - l i
    | none => P0
  let P2 := match eleQ with
    | some qv => fun i => P1 i - qv i
    | none => P1
  if dead then fun i => dead_srf * P2 i else P2

/-- C7: for a live element with an accumulated load vector and a self-weight
vector eleQ, getResistingForce returns K * u - load - eleQ componentwise, and
when u satisfies equilibrium with the linearized K (K * u = load + eleQ) the
residual is exactly zero. -/
theorem resistingForce_is_Ku_minus_load {n : ℕ} (K : Fin n → Fin n → ℚ)
    (u load eleQ : Fin n → ℚ)
    (h : mulVecQ K u = fun i => load i + eleQ i) :
    (∀ i, getResistingForce K u (some load) (some eleQ) false 1 i =
        mulVecQ K u i - load i - eleQ i) ∧
    getResistingForce K u (some load) (some eleQ) false 1 = fun _ => 0 := by
  constructor
  · intro i
    rfl
  · funext i
    show mulVecQ K u i - load i - eleQ i = 0
    rw [h]
    ring

/-- Concrete data for the C7 witness: a 2-dof diagonal stiffness in
equilibrium with the applied loads. -/
def wK : Fin 2 → Fin 2 → ℚ := ![![2, 0], ![0, 3]]
def wu : Fin 2 → ℚ := ![1, 1]
def wload : Fin 2 → ℚ := ![2, 0]
def weleQ : Fin 2 → ℚ := ![0, 3]

theorem wEquilibrium : mulVecQ wK wu = fun i => wload i + weleQ i := by
  funext i
  fin_cases i <;> norm_num [mulVecQ, wK, wu, wload, weleQ, Fin.sum_univ_two]

/-- Witness for C7 at the concrete equilibrium state. -/
theorem resistingForce_is_Ku_minus_load_witness :
    (mulVecQ wK wu = fun i => wload i + weleQ i) ∧
    getResistingForce wK wu (some wload) (some weleQ) false 1 = fun _ => 0 :=
  ⟨wEquilibrium,
   (resistingForce_is_Ku_minus_load wK wu wload weleQ wEquilibrium).2⟩

/-! ## C8: scatter-add assembly is traversal-order independent

Modelled from the spec: the assembly loop that visits every active element
and calls DOF_Group::addMtoTang / addPtoUnbalance is only declared in
src/src/solution/analysis/model/dof_grp/DOF_Group.h; its definition is not
under src/.  Following the spec (section 4.4): each element carries a local
matrix and vector and a local-to-global equation map where a negative
sentinel marks a constrained dof; for every local pair whose global equation
numbers are both valid the local value is ADDED into the global accumulator;
the global system starts from zero each formation pass. -/

/-- Modelled from the spec: the element-level contribution handed to the
assembler: equation numbers per local dof (negative = constrained sentinel),
local tangent matrix, local unbalance vector. -/
structure ElemContrib where
  idMap : List Int
  localK : ℕ → ℕ → ℚ
  localP : ℕ → ℚ

/-- Total contribution of one element to global tangent entry (R, C). -/
def tangEntry (e : ElemContrib) (R C : ℕ) : ℚ :=
  ∑ i ∈ Finset.range e.idMap.length, ∑ j ∈ Finset.range e.idMap.length,
    if e.idMap.getD i (-1) = (R : Int) ∧ e.idMap.getD j (-1) = (C : Int) then
      e.localK i j else 0

/-- Total contribution of one element to global residual entry R. -/
def unbalEntry (e : ElemContrib) (R : ℕ) : ℚ :=
  ∑ i ∈ Finset.range e.idMap.length,
    if e.idMap.getD i (-1) = (R : Int) then e.localP i else 0

/-- Modelled from the spec: DOF_Group::addMtoTang semantics, scatter-ADD of
one element into the global tangent accumulator. -/
def addMtoTang (g : ℕ × ℕ → ℚ) (e : ElemContrib) : ℕ × ℕ → ℚ :=
  fun rc => g rc + tangEntry e rc.1 rc.2

/-- Modelled from the spec: DOF_Group::addPtoUnbalance semantics, scatter-ADD
of one element into the global residual accumulator. -/
def addPtoUnbalance (g : ℕ → ℚ) (e : ElemContrib) : ℕ → ℚ :=
  fun r => g r + unbalEntry e r

/-- One formation pass over the element list, tangent side, starting from the
zeroed global accumulator. -/
def formTangent (es : List ElemContrib) : ℕ × ℕ → ℚ :=
  es.foldl addMtoTang fun _ => 0

/-- One formation pass over the element list, residual side. -/
def formResidual (es : List ElemContrib) : ℕ → ℚ :=
  es.foldl addPtoUnbalance fun _ => 0

theorem foldl_addMtoTang_eq (es : List ElemContrib) :
    ∀ (g : ℕ × ℕ → ℚ) (rc : ℕ × ℕ),
      (es.foldl addMtoTang g) rc =
        g rc + (es.map fun e => tangEntry e rc.1 rc.2).sum := by
  induction es with
  | nil => intro g rc; simp
  | cons e tl ih =>
    intro g rc
    simp only [List.foldl_cons, List.map_cons, List.sum_cons]
    rw [ih]
    show (g rc + tangEntry e rc.1 rc.2) + _ = _
    ring

theorem foldl_addPtoUnbalance_eq (es : List ElemContrib) :
    ∀ (g : ℕ → ℚ) (r : ℕ),
      (es.foldl addPtoUnbalance g) r =
        g r + (es.map fun e => unbalEntry e r).sum := by
  induction es with
  | nil => intro g r; simp
  | cons e tl ih =>
    intro g r
    simp only [List.foldl_cons, List.map_cons, List.sum_cons]
    rw [ih]
    show (g r + unbalEntry e r) + _ = _
    ring

/-- C8: for every two element traversal orders that are permutations of each
other, the scatter-add formation yields the identical global tangent matrix
and residual vector (assembly is commutative and associative). -/
theorem assembly_perm_invariant (es esO : List ElemContrib)
    (h : es.Perm esO) :
    formTangent es = formTangent esO ∧ formResidual es = formResidual esO := by
  constructor
  · funext rc
    rw [formTangent, formTangent, foldl_addMtoTang_eq, foldl_addMtoTang_eq]
    exact congrArg _ ((h.map fun e => tangEntry e rc.1 rc.2).sum_eq)
  · funext r
    rw [formResidual, formResidual, foldl_addPtoUnbalance_eq,
      foldl_addPtoUnbalance_eq]
    exact congrArg _ ((h.map fun e => unbalEntry e r).sum_eq)

/-- Three elements sharing global equation numbers (a chain 0-1, 1-2, 0-2)
for the C8 witness. -/
def elemA : ElemContrib := ⟨[0, 1], fun _ _ => 1, fun _ => 1⟩
def elemB : ElemContrib := ⟨[1, 2], fun i j => (i : ℚ) + (j : ℚ), fun _ => 2⟩
def elemC : ElemContrib := ⟨[0, 2], fun _ _ => 3, fun _ => 1 / 2⟩

/-- Witness for C8: swapping the first two of three node-sharing elements
leaves the assembled system unchanged. -/
theorem assembly_perm_invariant_witness :
    ([elemB, elemA, elemC].Perm [elemA, elemB, elemC]) ∧
    formTangent [elemB, elemA, elemC] = formTangent [elemA, elemB, elemC] ∧
    formResidual [elemB, elemA, elemC] = formResidual [elemA, elemB, elemC] :=
  ⟨List.Perm.swap elemA elemB [elemC],
   assembly_perm_invariant [elemB, elemA, elemC] [elemA, elemB, elemC]
     (List.Perm.swap elemA elemB [elemC])⟩

/-! ## C9: serialization round trips

CrossSectionKR::sendData (CrossSectionKR.cc lines 114-134) sends
rData[0..3] in slot 0 and kData[0..15] in slots 1..4, four doubles per slot;
recvData receives the same twenty doubles into the same fields in the same
order.  The wire is embedded as the flat list of the twenty rationals in
slot/position order.  EightNodeBrick_u_p_U::sendSelf and recvSelf
(EightNodeBrick_u_p_U.cpp lines 387-398) are stubs: both are commented
"Not implemtented yet" and simply return 0 without touching any state. -/

@[ext] structure CrossSectionKR where
  rData : Fin 4 → ℚ
  kData : Fin 16 → ℚ

def kr_sendData (s : CrossSectionKR) : List ℚ :=
  [s.rData 0, s.rData 1, s.rData 2, s.rData 3,
   s.kData 0, s.kData 1, s.kData 2, s.kData 3,
   s.kData 4, s.kData 5, s.kData 6, s.kData 7,
   s.kData 8, s.kData 9, s.kData 10, s.kData 11,
   s.kData 12, s.kData 13, s.kData 14, s.kData 15]

/-- recvData overwrites every rData and kData entry of the receiver from the
received message (the receiver argument carries no surviving state). -/
def kr_recvData (m : List ℚ) (_receiver : CrossSectionKR) : CrossSectionKR :=
  { rData := fun i => m.getD i.val 0,
    kData := fun i => m.getD (4 + i.val) 0 }

/-- The element state the claim lists for EightNodeBrick_u_p_U: porosity,
alpha, solid and fluid density, bulk moduli, pressure and the three
permeability diagonal entries (the constructor fields of the element). -/
structure BrickPersistentState where
  poro : ℚ
  alpha : ℚ
  rho_s : ℚ
  rho_f : ℚ
  ks : ℚ
  kf : ℚ
  pressure : ℚ
  perm_x : ℚ
  perm_y : ℚ
  perm_z : ℚ
deriving DecidableEq

/-- EightNodeBrick_u_p_U::sendSelf: not implemented, returns 0 and sends
nothing. -/
def brick_sendSelf (_s : BrickPersistentState) : Int × List ℚ :=
  (0, [])

/-- EightNodeBrick_u_p_U::recvSelf: not implemented, returns 0 and leaves the
receiver unchanged. -/
def brick_recvSelf (_m : List ℚ) (receiver : BrickPersistentState) :
    Int × BrickPersistentState :=
  (0, receiver)

def brickSender : BrickPersistentState :=
  ⟨1/2, 1, 2, 1, 3, 4, 5, 6, 7, 8⟩

def brickReceiver : BrickPersistentState :=
  ⟨0, 0, 0, 0, 0, 0, 0, 0, 0, 0⟩

/-- C9 counterexample: sending the state of a brick with porosity 1/2 (and
nonzero density and permeability) and receiving it into a zeroed brick does
not restore any field: recvSelf leaves the receiver state zero, so the claim
that every listed mutable numeric field round-trips through sendSelf and
recvSelf fails for EightNodeBrick_u_p_U at this concrete input. -/
theorem brick_sendRecv_loses_state :
    (brick_recvSelf (brick_sendSelf brickSender).2 brickReceiver).2 ≠
      brickSender := by
  intro h
  have hporo := congrArg BrickPersistentState.poro h
  norm_num [brick_recvSelf, brick_sendSelf, brickSender, brickReceiver] at hporo

/-- C9 amended: CrossSectionKR round-trips: receiving a sent state restores
all four resultant entries rData[0..3] and all sixteen stiffness entries
kData[0..15] whatever the prior receiver state; but EightNodeBrick_u_p_U
sendSelf/recvSelf are unimplemented stubs that return 0 and transfer no
state, so its material, porosity, density and permeability fields are not
(de)serialized. -/
theorem kr_roundtrip_brick_stub :
    (∀ s t : CrossSectionKR, kr_recvData (kr_sendData s) t = s) ∧
    (∀ (m : List ℚ) (t : BrickPersistentState), brick_recvSelf m t = (0, t)) ∧
    (∀ s : BrickPersistentState, brick_sendSelf s = (0, [])) := by
  refine ⟨?_, fun _ _ => rfl, fun _ => rfl⟩
  intro s t
  have hr : (kr_recvData (kr_sendData s) t).rData = s.rData := by
    funext i
    fin_cases i <;> rfl
  have hk : (kr_recvData (kr_sendData s) t).kData = s.kData := by
    funext i
    fin_cases i <;> rfl
  exact CrossSectionKR.ext hr hk
